import Mathlib

/-!
Verification development for the Metal API orchestration code
(src/metal/metal_api.cpp): the single-flight task gate, the typed HTTP
gateway functions (GetMerchantTokens, CreateToken, CreateLiquidity), the
poll-until-terminal loop of StartTokenCreationTask, and the two batch
task bodies.

Modelling conventions:
- A JSON document is the inductive type Json below; JSON numbers are
  rationals.
- An HTTP response is Response: transportFail models an empty body from
  MakeHttpRequest, parseFail a non-empty body rejected by the JSON
  parser, ok j a body that parses to the document j.
- A rapidjson checked access (HasMember plus an Is-type test before the
  Get) is total and is modelled by an Option-valued lookup tested
  against the expected shape.  An unchecked access (GetString, GetBool,
  GetUint64, operator[] without a preceding check) faults: with the
  stock RAPIDJSON_ASSERT it aborts via assert(), and under NDEBUG it is
  undefined behaviour; no std::exception is thrown, so the try/catch in
  GetMerchantTokens never observes these faults.  A faulting access is
  modelled by the surrounding function returning none (an undefined
  run), never by skipping the entry.
- The detached worker threads are modelled by their bodies as pure
  functions of the sequence of HTTP responses they would observe; the
  atomic exchange on the running flag is a single step on a Bool state.
-/

/-- JSON documents, as produced by the wire parser. -/
inductive Json where
  | null : Json
  | bool : Bool → Json
  | num : Rat → Json
  | str : String → Json
  | arr : List Json → Json
  | obj : List (String × Json) → Json

/-- First binding of a key in an object's member list (rapidjson's
FindMember scans members in order). -/
def lookupKey : List (String × Json) → String → Option Json
  | [], _ => none
  | (k, v) :: rest, key => if k = key then some v else lookupKey rest key

/-- Member lookup on a document: some value when the document is an
object that has the member, none otherwise. -/
def getMember (j : Json) (key : String) : Option Json :=
  match j with
  | Json.obj kvs => lookupKey kvs key
  | _ => none

/-- Read a member as a string: the member must exist and hold a string. -/
def getStrField (j : Json) (key : String) : Option String :=
  match getMember j key with
  | some (Json.str s) => some s
  | _ => none

/-- Read a member as an unsigned 64-bit integer (rapidjson GetUint64:
the number must be an integer in [0, 2^64)). -/
def getU64Field (j : Json) (key : String) : Option Nat :=
  match getMember j key with
  | some (Json.num q) =>
      if q.den = 1 ∧ 0 ≤ q.num ∧ q.num < (2 : Int) ^ (64 : Nat)
      then some q.num.toNat else none
  | _ => none

/-- Read a member as a number (rapidjson GetDouble accepts any number). -/
def getNumField (j : Json) (key : String) : Option Rat :=
  match getMember j key with
  | some (Json.num q) => some q
  | _ => none

/-- Whether a document is an array. -/
def isJsonArray : Json → Bool
  | Json.arr _ => true
  | _ => false

/-- Outcome of one MakeHttpRequest call followed by the parse step. -/
inductive Response where
  | transportFail : Response
  | parseFail : Response
  | ok : Json → Response

/-- One decoded token record, mirroring struct TokenInfo. -/
structure TokenInfo where
  id : String
  address : String
  name : String
  symbol : String
  totalSupply : Nat
  startingAppSupply : Nat
  remainingAppSupply : Nat
  merchantSupply : Nat
  merchantAddress : String
  price : Rat

/-- Sequential traversal collecting one result per item, stopping only
when an item's execution is undefined. -/
def mapOpt {α β : Type} (f : α → Option β) : List α → Option (List β)
  | [] => some []
  | a :: l =>
      match f a, mapOpt f l with
      | some b, some bs => some (b :: bs)
      | _, _ => none

/-- Decode one array entry exactly as the loop body of GetMerchantTokens
reads it.  Every access (operator[], GetString, GetUint64, GetDouble)
is unchecked: none here means the access faults (assert abort, or
undefined behaviour under NDEBUG).  rapidjson throws no std::exception,
so the surrounding catch block never fires for these faults and cannot
turn them into a skip. -/
def decodeTokenInfo (j : Json) : Option TokenInfo := do
  let id ← getStrField j "id"
  let address ← getStrField j "address"
  let name ← getStrField j "name"
  let symbol ← getStrField j "symbol"
  let totalSupply ← getU64Field j "totalSupply"
  let startingAppSupply ← getU64Field j "startingAppSupply"
  let remainingAppSupply ← getU64Field j "remainingAppSupply"
  let merchantSupply ← getU64Field j "merchantSupply"
  let merchantAddress ← getStrField j "merchantAddress"
  let price ← getNumField j "price"
  pure ⟨id, address, name, symbol, totalSupply, startingAppSupply,
        remainingAppSupply, merchantSupply, merchantAddress, price⟩

/-- MetalAPI::GetMerchantTokens as a function of the parsed response:
a defined empty list on transport failure, parse failure or a non-array
document; on an array, one record per entry in array order when every
entry decodes, and an undefined run (none) as soon as any entry's
unchecked reads fault — the loop does not survive a malformed entry. -/
def getMerchantTokens (resp : Response) : Option (List TokenInfo) :=
  match resp with
  | Response.transportFail => some []
  | Response.parseFail => some []
  | Response.ok j =>
      match j with
      | Json.arr xs => mapOpt decodeTokenInfo xs
      | _ => some []

/-- MetalAPI::CreateLiquidity as a function of the parsed response.
The code tests HasMember before reading, but calls GetBool without an
IsBool check, so a success member that is not a boolean is an unchecked
access: the result is none (no defined boolean return). -/
def createLiquidity (resp : Response) : Option Bool :=
  match resp with
  | Response.transportFail => some false
  | Response.parseFail => some false
  | Response.ok j =>
      match getMember j "success" with
      | none => some false
      | some (Json.bool b) => some b
      | some _ => none

/-- What one poll of GetTokenCreationStatus yields: an empty body, or a
body that parsed into the document carried here (the loop parses the
body without checking the parse result; a body that fails to parse is
modelled as a document on which the status read faults). -/
inductive Fetch where
  | empty : Fetch
  | body : Json → Fetch

/-- The status tag the loop would read from one fetch. -/
def fetchTag : Fetch → Option String
  | Fetch.empty => none
  | Fetch.body j => getStrField j "status"

/-- The fetch carries a well-formed body whose status tag is pending. -/
def isPendingFetch (f : Fetch) : Bool := decide (fetchTag f = some "pending")

/-- The fetch carries a well-formed body whose status tag is success. -/
def isSuccessFetch (f : Fetch) : Bool := decide (fetchTag f = some "success")

/-- The fetch is a terminal failure for the loop: an empty body, or a
readable status tag that is neither success nor pending. -/
def isTerminalFail : Fetch → Bool
  | Fetch.empty => true
  | Fetch.body j =>
      match getStrField j "status" with
      | none => false
      | some tag => decide (tag ≠ "success" ∧ tag ≠ "pending")

/-- The two result fields the loop reads on a success status:
data.name and data.address, both unchecked accesses. -/
def decodeSuccessData (j : Json) : Option (String × String) :=
  match getMember j "data" with
  | some d =>
      match getStrField d "name", getStrField d "address" with
      | some n, some a => some (n, a)
      | _, _ => none
  | none => none

/-- A non-empty poll body is well formed for the loop's unchecked reads:
the status member is a string, and when it is the success tag the
data.name and data.address strings exist. -/
def bodyWF : Fetch → Bool
  | Fetch.empty => true
  | Fetch.body j =>
      match getStrField j "status" with
      | none => false
      | some tag => if tag = "success" then (decodeSuccessData j).isSome else true

/-- Retry bound of the poll loop (while retry_count < 60). -/
def maxPollAttempts : Nat := 60

/-- Sleep between pending polls, in milliseconds. -/
def pollSleepMillis : Nat := 1000

/-- Delay between liquidity items in the initialization batch. -/
def interItemDelayMillis : Nat := 500

/-- How the poll loop ended. -/
inductive PollExit where
  | success : String → String → PollExit
  | fetchFail : PollExit
  | badStatus : String → PollExit
  | exhausted : PollExit
deriving DecidableEq

/-- The poll loop from attempt number k with the given fuel (number of
loop-body executions still permitted by the while condition).  Returns
the exit and the final retry_count, or none when an unchecked read
faults on a malformed body. -/
def pollSteps (src : Nat → Fetch) : Nat → Nat → Option (PollExit × Nat)
  | k, 0 => some (PollExit.exhausted, k - 1)
  | k, fuel + 1 =>
      match src k with
      | Fetch.empty => some (PollExit.fetchFail, k)
      | Fetch.body j =>
          match getStrField j "status" with
          | none => none
          | some tag =>
              if tag = "success" then
                match decodeSuccessData j with
                | some (n, a) => some (PollExit.success n a, k)
                | none => none
              else if tag = "pending" then pollSteps src (k + 1) fuel
              else some (PollExit.badStatus tag, k)

/-- The whole do/while poll loop for one job: attempts start at
retry_count = 1, with at most maxPollAttempts loop-body executions. -/
def pollJob (src : Nat → Fetch) : Option (PollExit × Nat) :=
  pollSteps src 1 maxPollAttempts

/-- Per-item outcome as narrated by the task. -/
inductive Outcome where
  | success : String → String → Outcome
  | failure : Outcome
  | gaveUp : Outcome
deriving DecidableEq

/-- Final narrated outcome of a finished poll: a success exit is a
success; otherwise the gave-up summary is printed exactly when the
final retry_count reached the bound, and the earlier error line stands
as the failure otherwise. -/
def classify : PollExit × Nat → Outcome
  | (PollExit.success n a, _) => Outcome.success n a
  | (_, k) => if maxPollAttempts ≤ k then Outcome.gaveUp else Outcome.failure

/-- The exit reports an item failure line (empty fetch or unexpected
status). -/
def isFailExit : PollExit → Bool
  | PollExit.fetchFail => true
  | PollExit.badStatus _ => true
  | _ => false

/-- The outcome a poll run records, when the run is defined. -/
def pollOutcome (src : Nat → Fetch) : Option Outcome :=
  (pollJob src).map classify

/-- The atomic exchange on the running flag: yields the previous value
and leaves the flag set. -/
def gateExchange (running : Bool) : Bool × Bool := (running, true)

/-- Gate acquisition step of MetalAPI::StartTokenCreationTask: the
returned Bool is the function's return value, the second component the
flag after the call. -/
def startTokenCreationTaskAcquire (running : Bool) : Bool × Bool :=
  let ex := gateExchange running
  if ex.1 then (false, ex.2) else (true, ex.2)

/-- Gate acquisition step of MetalAPI::StartGameInitializationTask. -/
def startGameInitializationTaskAcquire (running : Bool) : Bool × Bool :=
  let ex := gateExchange running
  if ex.1 then (false, ex.2) else (true, ex.2)

/-- Observable trace of one finished game-initialization task body. -/
structure InitRun where
  liquidityResults : List Bool
  listFetches : Nat
  liquidityCalls : Nat
  unpauseIssued : Bool
  releases : Nat
  finalRunning : Bool

/-- Body of the detached thread of StartGameInitializationTask: one
token-list fetch always happens; if the list decode faults the run is
undefined; a defined empty list is an early return with one flag
release, no liquidity call and no unpause command; otherwise one
CreateLiquidity call per token, then the unpause command and one flag
release. -/
def gameInitBody (listResp : Response) (liqResp : String → Response) : Option InitRun :=
  match getMerchantTokens listResp with
  | none => none
  | some tokens =>
      if tokens.length = 0 then some ⟨[], 1, 0, false, 1, false⟩
      else
        (mapOpt (fun t => createLiquidity (liqResp t.address)) tokens).map
          (fun rs => ⟨rs, 1, tokens.length, true, 1, false⟩)

/-- Total HTTP requests a finished initialization task body performed. -/
def initHttpCalls (r : InitRun) : Nat := r.listFetches + r.liquidityCalls

/-- Every body the poll loop could fetch is well formed. -/
def WFSrc (src : Nat → Fetch) : Prop :=
  ∀ k, 1 ≤ k → k ≤ maxPollAttempts → bodyWF (src k) = true

/-- The loop reached a success exit by attempt N. -/
def SuccessWithin (src : Nat → Fetch) (N : Nat) : Prop :=
  ∃ n a k, pollJob src = some (PollExit.success n a, k) ∧ k ≤ N

/-- The status source shows a pending prefix followed by a success
report at some attempt at or before N. -/
def SourceSucceedsBy (src : Nat → Fetch) (N : Nat) : Prop :=
  ∃ k, 1 ≤ k ∧ k ≤ N ∧ isSuccessFetch (src k) = true ∧
    ∀ j, 1 ≤ j → j < k → isPendingFetch (src j) = true

/-- Full input/output characterization of the poll loop on well-formed
sources: success by attempt N exactly when the source is pending up to
a success report at some attempt at or before N; the gave-up outcome
exactly when the source is pending on attempts 1..59 and attempt 60 is
not a success report. -/
def PollCharacterization (src : Nat → Fetch) : Prop :=
  (∀ N, N ≤ maxPollAttempts → (SuccessWithin src N ↔ SourceSucceedsBy src N)) ∧
  (pollOutcome src = some Outcome.gaveUp ↔
    ((∀ j, 1 ≤ j → j < maxPollAttempts → isPendingFetch (src j) = true) ∧
     isSuccessFetch (src maxPollAttempts) = false))

/-- The loop stops at attempt k with a failure exit, the recorded
outcome is failure before the bound and gave-up at the bound, and no
fetch beyond attempt k influences the run. -/
def StopsAtFailure (src : Nat → Fetch) (k : Nat) : Prop :=
  ∃ e, pollJob src = some (e, k) ∧ isFailExit e = true ∧
    pollOutcome src =
      some (if k < maxPollAttempts then Outcome.failure else Outcome.gaveUp) ∧
    ∀ src2 : Nat → Fetch, (∀ j, j ≤ k → src2 j = src j) → pollJob src2 = some (e, k)

/-- A status source whose every fetch is a transport failure. -/
def srcAllEmpty : Nat → Fetch := fun _ => Fetch.empty

/-- A well-formed pending status body. -/
def pendingBody : Fetch := Fetch.body (Json.obj [("status", Json.str "pending")])

/-- A well-formed success status body with result fields. -/
def successBody : Fetch :=
  Fetch.body (Json.obj
    [("status", Json.str "success"),
     ("data", Json.obj [("name", Json.str "T"), ("address", Json.str "A")])])

/-- A source that reports success from the first attempt on. -/
def srcAllSuccess : Nat → Fetch := fun _ => successBody

/-- A source whose first body is an object without a status member. -/
def srcMalformed : Nat → Fetch := fun _ => Fetch.body (Json.obj [])

/-- A source that is pending on attempts 1..59 and suffers a transport
failure on attempt 60. -/
def srcPendThenDrop : Nat → Fetch :=
  fun k => if k < 60 then pendingBody else Fetch.empty

/-- A source that reports a terminal failed status on attempt 1 and
success from attempt 2 on. -/
def srcFailThenSuccess : Nat → Fetch :=
  fun k => if k = 1 then Fetch.body (Json.obj [("status", Json.str "failed")]) else successBody

/-- A source that is pending on attempts 1..59 and reports an
unrecognized status tag on attempt 60. -/
def srcBadAt60 : Nat → Fetch :=
  fun k => if k < 60 then pendingBody else Fetch.body (Json.obj [("status", Json.str "error")])

/-- A token-list response that parses to an empty array. -/
def emptyListResp : Response := Response.ok (Json.arr [])

/-- A liquidity response source that always fails at transport. -/
def noLiq : String → Response := fun _ => Response.transportFail

/-- A fully well-formed token list entry. -/
def goodEntryA : Json :=
  Json.obj
    [("id", Json.str "t1"), ("address", Json.str "0xA"), ("name", Json.str "Alpha"),
     ("symbol", Json.str "ALP"), ("totalSupply", Json.num 100),
     ("startingAppSupply", Json.num 40), ("remainingAppSupply", Json.num 30),
     ("merchantSupply", Json.num 60), ("merchantAddress", Json.str "0xM"),
     ("price", Json.num 3)]

/-- The record goodEntryA decodes to. -/
def goodRecordA : TokenInfo :=
  ⟨"t1", "0xA", "Alpha", "ALP", 100, 40, 30, 60, "0xM", 3⟩

/-- An entry missing the required name member. -/
def badEntry : Json :=
  Json.obj
    [("id", Json.str "t2"), ("address", Json.str "0xB"),
     ("symbol", Json.str "BET"), ("totalSupply", Json.num 5),
     ("startingAppSupply", Json.num 1), ("remainingAppSupply", Json.num 1),
     ("merchantSupply", Json.num 3), ("merchantAddress", Json.str "0xM"),
     ("price", Json.num 1)]

/-- C1: the single-flight gate is acquired by an atomic exchange
modelled as one step.  From a clear flag either start call returns true
and sets the flag; from a set flag either start call returns false and
leaves the flag set; hence two acquisition attempts in immediate
succession succeed exactly once. -/
theorem c1_single_flight_gate :
    startTokenCreationTaskAcquire false = (true, true) ∧
    startTokenCreationTaskAcquire true = (false, true) ∧
    startGameInitializationTaskAcquire false = (true, true) ∧
    startGameInitializationTaskAcquire true = (false, true) ∧
    (startTokenCreationTaskAcquire false).1 = true ∧
    (startTokenCreationTaskAcquire (startTokenCreationTaskAcquire false).2).1 = false ∧
    (startGameInitializationTaskAcquire (startGameInitializationTaskAcquire false).2).1 = false := by
  decide

/-- C9 counterexample: even on an empty token list the initialization
task has already performed the one token-list fetch, so the number of
HTTP calls it performs is one, not zero. -/
theorem c9_counterexample :
    gameInitBody emptyListResp noLiq = some ⟨[], 1, 0, false, 1, false⟩ ∧
    initHttpCalls ⟨[], 1, 0, false, 1, false⟩ = 1 ∧ (1 : Nat) ≠ 0 :=
  ⟨rfl, rfl, by simp⟩

/-- C9 amended: when the token-list fetch completes without faulting
and yields an empty list, the liquidity-initialization task stops
immediately after that single token-list fetch: it performs zero
CreateLiquidity calls, records no liquidity results, issues no unpause
command, and releases the gate exactly once. -/
theorem c9_empty_liquidity :
    ∀ (listResp : Response) (liqResp : String → Response),
      getMerchantTokens listResp = some [] →
      gameInitBody listResp liqResp = some ⟨[], 1, 0, false, 1, false⟩ := by
  intro listResp liqResp h
  simp [gameInitBody, h]

/-- Witness for C9 (amended) at an empty-array response. -/
theorem c9_witness :
    getMerchantTokens emptyListResp = some [] ∧
    gameInitBody emptyListResp noLiq = some ⟨[], 1, 0, false, 1, false⟩ :=
  ⟨rfl, c9_empty_liquidity emptyListResp noLiq rfl⟩

/-- C6: evaluation of GetMerchantTokens at the claim's failing input.
An all-well-formed array produces one record per entry in order, and
the failure modes produce a defined empty list; but an array containing
a malformed entry (here one missing the name member) makes the run
undefined — the unchecked reads fault before the catch block could
fire, so the entry is not skipped and the scan does not continue, where
the claim (and the code's own catch-and-log handler) intend a silent
skip. -/
theorem c6_malformed_entry_faults :
    getMerchantTokens Response.transportFail = some [] ∧
    getMerchantTokens Response.parseFail = some [] ∧
    getMerchantTokens (Response.ok (Json.obj [])) = some [] ∧
    getMerchantTokens (Response.ok (Json.arr [goodEntryA])) = some [goodRecordA] ∧
    decodeTokenInfo badEntry = none ∧
    getMerchantTokens (Response.ok (Json.arr [goodEntryA, badEntry])) = none := by
  refine ⟨rfl, rfl, rfl, rfl, rfl, rfl⟩

/-- A pending fetch makes the loop body recurse to the next attempt. -/
theorem pollSteps_pending_step (src : Nat → Fetch) (k fuel : Nat)
    (h : isPendingFetch (src k) = true) :
    pollSteps src k (fuel + 1) = pollSteps src (k + 1) fuel := by
  have htag : fetchTag (src k) = some "pending" := by
    simpa [isPendingFetch, decide_eq_true_eq] using h
  cases hsrc : src k with
  | empty => rw [hsrc] at htag; simp [fetchTag] at htag
  | body j =>
      rw [hsrc] at htag
      simp only [fetchTag] at htag
      simp [pollSteps, hsrc, htag]

/-- An empty fetch stops the loop at the current attempt. -/
theorem pollSteps_empty_step (src : Nat → Fetch) (k fuel : Nat)
    (h : src k = Fetch.empty) :
    pollSteps src k (fuel + 1) = some (PollExit.fetchFail, k) := by
  simp [pollSteps, h]

/-- A well-formed success fetch stops the loop at the current attempt
with the embedded result fields. -/
theorem pollSteps_success_step (src : Nat → Fetch) (k fuel : Nat)
    (h : isSuccessFetch (src k) = true) (hwf : bodyWF (src k) = true) :
    ∃ n a, pollSteps src k (fuel + 1) = some (PollExit.success n a, k) := by
  cases hsrc : src k
  case empty => rw [hsrc] at h; simp [isSuccessFetch, fetchTag] at h
  case body j =>
    rw [hsrc] at h hwf
    have htag : getStrField j "status" = some "success" := by
      simpa [isSuccessFetch, fetchTag, decide_eq_true_eq] using h
    have hdec : (decodeSuccessData j).isSome = true := by
      simpa [bodyWF, htag] using hwf
    obtain ⟨p, hp⟩ := Option.isSome_iff_exists.mp hdec
    obtain ⟨n, a⟩ := p
    exact ⟨n, a, by simp [pollSteps, hsrc, htag, hp]⟩

/-- A fetch whose status tag is neither success nor pending stops the
loop at the current attempt with that tag. -/
theorem pollSteps_bad_step (src : Nat → Fetch) (k fuel : Nat) (tag : String)
    (htag : fetchTag (src k) = some tag)
    (hs : tag ≠ "success") (hp : tag ≠ "pending") :
    pollSteps src k (fuel + 1) = some (PollExit.badStatus tag, k) := by
  cases hsrc : src k with
  | empty => rw [hsrc] at htag; simp [fetchTag] at htag
  | body j =>
      rw [hsrc] at htag
      simp only [fetchTag] at htag
      simp [pollSteps, hsrc, htag, hs, hp]

/-- A pending prefix is traversed without changing the loop's result. -/
theorem pollSteps_skip_pending (src : Nat → Fetch) :
    ∀ d fuel k, d ≤ fuel →
      (∀ j, k ≤ j → j < k + d → isPendingFetch (src j) = true) →
      pollSteps src k fuel = pollSteps src (k + d) (fuel - d) := by
  intro d
  induction d with
  | zero => intro fuel k _ _; simp
  | succ d ih =>
      intro fuel k hd hpend
      obtain ⟨f, rfl⟩ : ∃ f, fuel = f + 1 := ⟨fuel - 1, by omega⟩
      have h1 : pollSteps src k (f + 1) = pollSteps src (k + 1) f :=
        pollSteps_pending_step src k f (hpend k (le_refl k) (by omega))
      have h2 : pollSteps src (k + 1) f = pollSteps src (k + 1 + d) (f - d) :=
        ih f (k + 1) (by omega) (fun j hj1 hj2 => hpend j (by omega) (by omega))
      rw [h1, h2]
      congr 1
      · omega
      · omega

/-- Soundness of the loop's result: on a stop, all earlier consulted
attempts were pending, and the exit matches what the stopping fetch
showed; on exhaustion the final attempt count sits at the bound. -/
theorem pollSteps_sound (src : Nat → Fetch) :
    ∀ fuel k e m, 1 ≤ k → pollSteps src k fuel = some (e, m) →
      (∀ j, k ≤ j → j < m → isPendingFetch (src j) = true) ∧
      ((e = PollExit.exhausted ∧ m + 1 = k + fuel ∧
         (fuel = 0 ∨ isPendingFetch (src m) = true)) ∨
       (k ≤ m ∧ m < k + fuel ∧
         ((e = PollExit.fetchFail ∧ src m = Fetch.empty) ∨
          (∃ n a, e = PollExit.success n a ∧ fetchTag (src m) = some "success") ∨
          (∃ t, e = PollExit.badStatus t ∧ fetchTag (src m) = some t ∧
            t ≠ "success" ∧ t ≠ "pending")))) := by
  intro fuel
  induction fuel with
  | zero =>
      intro k e m hk h
      simp only [pollSteps, Option.some.injEq, Prod.mk.injEq] at h
      obtain ⟨rfl, rfl⟩ := h
      refine ⟨fun j hj1 hj2 => absurd hj2 (by omega), Or.inl ⟨rfl, by omega, Or.inl rfl⟩⟩
  | succ fuel ih =>
      intro k e m hk h
      cases hsrc : src k with
      | empty =>
          rw [pollSteps_empty_step src k fuel hsrc] at h
          simp only [Option.some.injEq, Prod.mk.injEq] at h
          obtain ⟨rfl, rfl⟩ := h
          exact ⟨fun j hj1 hj2 => absurd hj2 (by omega),
            Or.inr ⟨le_refl k, by omega, Or.inl ⟨rfl, hsrc⟩⟩⟩
      | body j =>
          cases htag : getStrField j "status" with
          | none =>
              have hnone : pollSteps src k (fuel + 1) = none := by
                simp [pollSteps, hsrc, htag]
              rw [hnone] at h
              exact absurd h (by simp)
          | some tag =>
              by_cases hsucc : tag = "success"
              · subst hsucc
                cases hdec : decodeSuccessData j with
                | none =>
                    have hnone : pollSteps src k (fuel + 1) = none := by
                      simp [pollSteps, hsrc, htag, hdec]
                    rw [hnone] at h
                    exact absurd h (by simp)
                | some p =>
                    obtain ⟨n, a⟩ := p
                    have hstep : pollSteps src k (fuel + 1) =
                        some (PollExit.success n a, k) := by
                      simp [pollSteps, hsrc, htag, hdec]
                    rw [hstep] at h
                    simp only [Option.some.injEq, Prod.mk.injEq] at h
                    obtain ⟨rfl, rfl⟩ := h
                    refine ⟨fun j' hj1 hj2 => absurd hj2 (by omega),
                      Or.inr ⟨le_refl k, by omega, Or.inr (Or.inl ⟨n, a, rfl, ?_⟩)⟩⟩
                    simp [fetchTag, hsrc, htag]
              · by_cases hpend : tag = "pending"
                · subst hpend
                  have hpk : isPendingFetch (src k) = true := by
                    simp [isPendingFetch, fetchTag, hsrc, htag]
                  rw [pollSteps_pending_step src k fuel hpk] at h
                  obtain ⟨hpre, hdisj⟩ := ih (k + 1) e m (by omega) h
                  constructor
                  · intro j' hj1 hj2
                    rcases Nat.eq_or_lt_of_le hj1 with hEq | hLt
                    · rw [← hEq]; exact hpk
                    · exact hpre j' hLt hj2
                  · rcases hdisj with ⟨he, hm, hrest⟩ | ⟨h1, h2, hrest⟩
                    · refine Or.inl ⟨he, by omega, Or.inr ?_⟩
                      rcases hrest with hf0 | hp
                      · have hmk : m = k := by omega
                        rw [hmk]; exact hpk
                      · exact hp
                    · exact Or.inr ⟨by omega, by omega, hrest⟩
                · have hstep : pollSteps src k (fuel + 1) =
                      some (PollExit.badStatus tag, k) := by
                    simp [pollSteps, hsrc, htag, hsucc, hpend]
                  rw [hstep] at h
                  simp only [Option.some.injEq, Prod.mk.injEq] at h
                  obtain ⟨rfl, rfl⟩ := h
                  refine ⟨fun j' hj1 hj2 => absurd hj2 (by omega),
                    Or.inr ⟨le_refl k, by omega,
                      Or.inr (Or.inr ⟨tag, rfl, ?_, hsucc, hpend⟩)⟩⟩
                  simp [fetchTag, hsrc, htag]

/-- The loop's result depends only on the fetches up to the attempt at
which it stopped. -/
theorem pollSteps_stop_agree (src src2 : Nat → Fetch) :
    ∀ fuel k e m, 1 ≤ k → pollSteps src k fuel = some (e, m) →
      (∀ j, k ≤ j → j ≤ m → src2 j = src j) →
      pollSteps src2 k fuel = some (e, m) := by
  intro fuel
  induction fuel with
  | zero =>
      intro k e m hk h hag
      simpa [pollSteps] using h
  | succ fuel ih =>
      intro k e m hk h hag
      have hkm : k ≤ m := by
        obtain ⟨-, hd⟩ := pollSteps_sound src (fuel + 1) k e m hk h
        rcases hd with ⟨-, hm, -⟩ | ⟨h1, -, -⟩
        · omega
        · exact h1
      have hk2 : src2 k = src k := hag k (le_refl k) hkm
      cases hsrc : src k
      case empty =>
        rw [pollSteps_empty_step src k fuel hsrc] at h
        rw [pollSteps_empty_step src2 k fuel (by rw [hk2, hsrc])]
        exact h
      case body j =>
        cases htag : getStrField j "status"
        case none =>
          have hnone : pollSteps src k (fuel + 1) = none := by
            simp [pollSteps, hsrc, htag]
          rw [hnone] at h
          exact absurd h (by simp)
        case some tag =>
          by_cases hsucc : tag = "success"
          · subst hsucc
            rcases hdec : decodeSuccessData j with - | ⟨n, a⟩
            · have hnone : pollSteps src k (fuel + 1) = none := by
                simp [pollSteps, hsrc, htag, hdec]
              rw [hnone] at h
              exact absurd h (by simp)
            · have h1 : pollSteps src k (fuel + 1) = some (PollExit.success n a, k) := by
                simp [pollSteps, hsrc, htag, hdec]
              have h2 : pollSteps src2 k (fuel + 1) = some (PollExit.success n a, k) := by
                simp [pollSteps, hk2, hsrc, htag, hdec]
              rw [h1] at h
              rw [h2]
              exact h
          · by_cases hpend : tag = "pending"
            · subst hpend
              have hpk : isPendingFetch (src k) = true := by
                simp [isPendingFetch, fetchTag, hsrc, htag]
              have hpk2 : isPendingFetch (src2 k) = true := by rw [hk2]; exact hpk
              rw [pollSteps_pending_step src k fuel hpk] at h
              rw [pollSteps_pending_step src2 k fuel hpk2]
              exact ih (k + 1) e m (by omega) h (fun j' hj1 hj2 => hag j' (by omega) hj2)
            · have h1 : pollSteps src k (fuel + 1) = some (PollExit.badStatus tag, k) := by
                simp [pollSteps, hsrc, htag, hsucc, hpend]
              have h2 : pollSteps src2 k (fuel + 1) = some (PollExit.badStatus tag, k) := by
                simp [pollSteps, hk2, hsrc, htag, hsucc, hpend]
              rw [h1] at h
              rw [h2]
              exact h

/-- On a source whose bodies are all well formed over the fuel window,
the loop's run is defined. -/
theorem pollSteps_wf_isSome (src : Nat → Fetch) :
    ∀ fuel k, (∀ j, k ≤ j → j < k + fuel → bodyWF (src j) = true) →
      (pollSteps src k fuel).isSome = true := by
  intro fuel
  induction fuel with
  | zero => intro k _; simp [pollSteps]
  | succ fuel ih =>
      intro k hwf
      cases hsrc : src k
      case empty => simp [pollSteps_empty_step src k fuel hsrc]
      case body j =>
        have hwfk : bodyWF (Fetch.body j) = true := by
          rw [← hsrc]; exact hwf k (le_refl k) (by omega)
        cases htag : getStrField j "status"
        case none => simp [bodyWF, htag] at hwfk
        case some tag =>
          by_cases hsucc : tag = "success"
          · subst hsucc
            have hdec : (decodeSuccessData j).isSome = true := by
              simpa [bodyWF, htag] using hwfk
            obtain ⟨p, hp⟩ := Option.isSome_iff_exists.mp hdec
            obtain ⟨n, a⟩ := p
            simp [pollSteps, hsrc, htag, hp]
          · by_cases hpend : tag = "pending"
            · subst hpend
              have hpk : isPendingFetch (src k) = true := by
                simp [isPendingFetch, fetchTag, hsrc, htag]
              rw [pollSteps_pending_step src k fuel hpk]
              exact ih (k + 1) (fun j' h1 h2 => hwf j' (by omega) (by omega))
            · simp [pollSteps, hsrc, htag, hsucc, hpend]

/-- A pending fetch is not a success fetch. -/
theorem isPending_not_success {f : Fetch} (h : isPendingFetch f = true) :
    isSuccessFetch f = false := by
  have htag : fetchTag f = some "pending" := by
    simpa [isPendingFetch, decide_eq_true_eq] using h
  simp [isSuccessFetch, htag]

/-- Classification of a failure exit by the final attempt count. -/
theorem classify_fail (e : PollExit) (he : isFailExit e = true) (k : Nat) :
    classify (e, k) = if k < maxPollAttempts then Outcome.failure else Outcome.gaveUp := by
  have hsw : (if maxPollAttempts ≤ k then Outcome.gaveUp else Outcome.failure) =
      if k < maxPollAttempts then Outcome.failure else Outcome.gaveUp := by
    by_cases hlt : k < maxPollAttempts
    · rw [if_pos hlt, if_neg (by omega)]
    · rw [if_neg hlt, if_pos (by omega)]
  cases e
  case success n a => simp [isFailExit] at he
  case fetchFail => simpa [classify] using hsw
  case badStatus t => simpa [classify] using hsw
  case exhausted => simp [isFailExit] at he

/-- C4 counterexample: with a source that is pending on attempts 1..59
and suffers a transport failure on attempt 60, the loop narrates the
gave-up summary although the source was not pending on all 60 attempts;
and with a source that reports a terminal failed status on attempt 1
and success on attempt 2, the source reports Success at or before
attempt 2 yet the loop records a failure, so both directions of the
claimed equivalences fail on the code. -/
theorem c4_counterexample :
    pollOutcome srcPendThenDrop = some Outcome.gaveUp ∧
    isPendingFetch (srcPendThenDrop 60) = false ∧
    isSuccessFetch (srcFailThenSuccess 2) = true ∧
    pollOutcome srcFailThenSuccess = some Outcome.failure := by
  refine ⟨?_, ?_, ?_, ?_⟩ <;> rfl

/-- C4 amended: over well-formed status sources, the loop reaches a
success outcome within N attempts (N at most 60) exactly when the
source shows pending up to a success report at some attempt at or
before N; and it narrates the gave-up summary exactly when the source
is pending on attempts 1..59 and attempt 60 is not a success report
(whether attempt 60 is pending, a transport failure, or a terminal
status).  The attempt bound is exactly 60 with a fixed 1000 ms wait
between pending attempts. -/
theorem c4_poll_characterization :
    (∀ src : Nat → Fetch, WFSrc src → PollCharacterization src) ∧
    maxPollAttempts = 60 ∧ pollSleepMillis = 1000 := by
  refine ⟨?_, rfl, rfl⟩
  intro src hwf
  have hmp : maxPollAttempts = 60 := rfl
  constructor
  · intro N hN
    constructor
    · rintro ⟨n, a, k, hpoll, hkN⟩
      obtain ⟨hpre, hd⟩ :=
        pollSteps_sound src maxPollAttempts 1 (PollExit.success n a) k (le_refl 1) hpoll
      rcases hd with ⟨he, -, -⟩ | ⟨h1, h2, hrest⟩
      · exact absurd he (by simp)
      · rcases hrest with ⟨hfe, -⟩ | ⟨n2, a2, -, htag⟩ | ⟨t, hbe, -, -, -⟩
        · exact absurd hfe (by simp)
        · exact ⟨k, h1, hkN, by simp [isSuccessFetch, htag], hpre⟩
        · exact absurd hbe (by simp)
    · rintro ⟨k, hk1, hkN, hsucc, hpend⟩
      have hdle : k - 1 ≤ maxPollAttempts := by omega
      have hskip := pollSteps_skip_pending src (k - 1) maxPollAttempts 1 hdle
        (fun j hj1 hj2 => hpend j hj1 (by omega))
      have hk' : 1 + (k - 1) = k := by omega
      obtain ⟨f, hf⟩ : ∃ f, maxPollAttempts - (k - 1) = f + 1 :=
        ⟨maxPollAttempts - (k - 1) - 1, by omega⟩
      obtain ⟨n, a, hstep⟩ :=
        pollSteps_success_step src k f hsucc (hwf k hk1 (le_trans hkN hN))
      refine ⟨n, a, k, ?_, hkN⟩
      show pollSteps src 1 maxPollAttempts = some (PollExit.success n a, k)
      rw [hskip, hk', hf, hstep]
  · constructor
    · intro hgave
      rcases hpoll : pollJob src with - | ⟨e, m⟩
      · rw [pollOutcome, hpoll] at hgave; simp at hgave
      · rw [pollOutcome, hpoll] at hgave
        simp only [Option.map_some', Option.some.injEq] at hgave
        have hnotsucc : ∀ n a, e ≠ PollExit.success n a := by
          intro n a he
          rw [he] at hgave
          simp [classify] at hgave
        have hm60 : maxPollAttempts ≤ m := by
          by_contra hlt
          cases e
          case success n a => exact hnotsucc n a rfl
          case fetchFail => simp [classify, hlt] at hgave
          case badStatus t => simp [classify, hlt] at hgave
          case exhausted => simp [classify, hlt] at hgave
        obtain ⟨hpre, hd⟩ := pollSteps_sound src maxPollAttempts 1 e m (le_refl 1) hpoll
        rcases hd with ⟨he, hm, hrest⟩ | ⟨h1, h2, hrest⟩
        · have hm' : m = maxPollAttempts := by omega
          refine ⟨fun j hj1 hj2 => hpre j hj1 (by omega), ?_⟩
          rcases hrest with hf0 | hp
          · rw [hmp] at hf0; exact absurd hf0 (by omega)
          · rw [← hm']; exact isPending_not_success hp
        · have hm' : m = maxPollAttempts := by omega
          refine ⟨fun j hj1 hj2 => hpre j hj1 (by omega), ?_⟩
          rcases hrest with ⟨-, hempty⟩ | ⟨n, a, hse, -⟩ | ⟨t, -, htag, hts, -⟩
          · rw [← hm']; simp [isSuccessFetch, fetchTag, hempty]
          · exact absurd hse (hnotsucc n a)
          · rw [← hm']; simp [isSuccessFetch, htag, hts]
    · rintro ⟨hpend, hnsucc⟩
      have hdle : maxPollAttempts - 1 ≤ maxPollAttempts := by omega
      have hskip := pollSteps_skip_pending src (maxPollAttempts - 1) maxPollAttempts 1 hdle
        (fun j hj1 hj2 => hpend j hj1 (by omega))
      have hk' : 1 + (maxPollAttempts - 1) = maxPollAttempts := by omega
      have h1 : maxPollAttempts - (maxPollAttempts - 1) = 1 := by omega
      have hj : pollJob src = pollSteps src maxPollAttempts 1 := by
        unfold pollJob
        rw [hskip, hk', h1]
      cases hsrc : src maxPollAttempts
      case empty =>
        rw [pollOutcome, hj, pollSteps_empty_step src maxPollAttempts 0 hsrc]
        simp [classify]
      case body j =>
        have hwfm : bodyWF (Fetch.body j) = true := by
          rw [← hsrc]; exact hwf maxPollAttempts (by omega) (le_refl maxPollAttempts)
        cases htag : getStrField j "status"
        case none => simp [bodyWF, htag] at hwfm
        case some tag =>
          by_cases hsucc : tag = "success"
          · exfalso
            rw [hsucc] at htag
            have hs : isSuccessFetch (src maxPollAttempts) = true := by
              simp [isSuccessFetch, fetchTag, hsrc, htag]
            rw [hs] at hnsucc
            exact absurd hnsucc (by simp)
          · by_cases hpd : tag = "pending"
            · subst hpd
              have hpk : isPendingFetch (src maxPollAttempts) = true := by
                simp [isPendingFetch, fetchTag, hsrc, htag]
              rw [pollOutcome, hj, pollSteps_pending_step src maxPollAttempts 0 hpk]
              simp [pollSteps, classify]
            · rw [pollOutcome, hj, pollSteps_bad_step src maxPollAttempts 0 tag
                (by simp [fetchTag, hsrc, htag]) hsucc hpd]
              simp [classify]

/-- Witness for C4 (amended) at a source that reports success at once. -/
theorem c4_witness :
    WFSrc srcAllSuccess ∧ PollCharacterization srcAllSuccess :=
  ⟨fun _ _ _ => rfl,
   c4_poll_characterization.1 srcAllSuccess (fun _ _ _ => rfl)⟩

/-- C5 counterexample: a terminal failed status observed on attempt 60
does stop the loop, but the item's final narrated outcome is the
gave-up summary, not a failure outcome as the claim states for every
non-pending observation. -/
theorem c5_counterexample :
    isTerminalFail (srcBadAt60 60) = true ∧
    pollJob srcBadAt60 = some (PollExit.badStatus "error", 60) ∧
    pollOutcome srcBadAt60 = some Outcome.gaveUp := by
  refine ⟨?_, ?_, ?_⟩ <;> rfl

/-- C5 amended: the loop never retries a non-pending observation: when
attempts 1..k-1 are pending and attempt k (k at most 60) is a transport
failure or decodes to a status tag that is neither success nor pending,
the loop stops at attempt k with a failure report, fetches nothing
beyond attempt k (any source agreeing up to attempt k yields the same
run), and the final narrated outcome is failure when k is below the
60-attempt bound and the gave-up summary when k is exactly 60. -/
theorem c5_terminal_stop :
    ∀ (src : Nat → Fetch) (k : Nat), 1 ≤ k → k ≤ maxPollAttempts →
      (∀ j, 1 ≤ j → j < k → isPendingFetch (src j) = true) →
      isTerminalFail (src k) = true →
      StopsAtFailure src k := by
  intro src k hk1 hk60 hpend hterm
  have hmp : maxPollAttempts = 60 := rfl
  have hdle : k - 1 ≤ maxPollAttempts := by omega
  have hskip := pollSteps_skip_pending src (k - 1) maxPollAttempts 1 hdle
    (fun j hj1 hj2 => hpend j hj1 (by omega))
  have hk' : 1 + (k - 1) = k := by omega
  obtain ⟨f, hf⟩ : ∃ f, maxPollAttempts - (k - 1) = f + 1 :=
    ⟨maxPollAttempts - (k - 1) - 1, by omega⟩
  cases hsrc : src k
  case empty =>
    have hpoll : pollJob src = some (PollExit.fetchFail, k) := by
      unfold pollJob
      rw [hskip, hk', hf]
      exact pollSteps_empty_step src k f hsrc
    refine ⟨PollExit.fetchFail, hpoll, rfl, ?_, ?_⟩
    · rw [pollOutcome, hpoll]
      simp only [Option.map_some']
      rw [classify_fail PollExit.fetchFail rfl k]
    · intro src2 hag
      exact pollSteps_stop_agree src src2 maxPollAttempts 1 PollExit.fetchFail k
        (le_refl 1) hpoll (fun j _ hj2 => hag j hj2)
  case body j =>
    rw [hsrc] at hterm
    cases htag : getStrField j "status"
    case none => simp [isTerminalFail, htag] at hterm
    case some tag =>
      have hts : tag ≠ "success" ∧ tag ≠ "pending" := by
        simpa [isTerminalFail, htag, decide_eq_true_eq] using hterm
      have hpoll : pollJob src = some (PollExit.badStatus tag, k) := by
        unfold pollJob
        rw [hskip, hk', hf]
        exact pollSteps_bad_step src k f tag (by simp [fetchTag, hsrc, htag]) hts.1 hts.2
      refine ⟨PollExit.badStatus tag, hpoll, rfl, ?_, ?_⟩
      · rw [pollOutcome, hpoll]
        simp only [Option.map_some']
        rw [classify_fail (PollExit.badStatus tag) rfl k]
      · intro src2 hag
        exact pollSteps_stop_agree src src2 maxPollAttempts 1 (PollExit.badStatus tag) k
          (le_refl 1) hpoll (fun j' _ hj2 => hag j' hj2)

/-- Witness for C5 (amended) at a source whose first fetch already is a
transport failure. -/
theorem c5_witness :
    (1 : Nat) ≤ 1 ∧ 1 ≤ maxPollAttempts ∧
    isTerminalFail (srcAllEmpty 1) = true ∧
    StopsAtFailure srcAllEmpty 1 :=
  ⟨le_refl 1, by decide, rfl,
   c5_terminal_stop srcAllEmpty 1 (le_refl 1) (by decide)
     (fun j hj1 hj2 => absurd hj2 (by omega)) rfl⟩

/-- C10: the poll loop decodes each non-empty status body with
unchecked reads.  When every non-empty fetch is a JSON object with a
string status member (and string data.name and data.address on a
success status) the loop's run is defined; when the first fetched body
lacks the status member the run is undefined — in particular no error
branch records a failure outcome for the malformed response. -/
theorem c10_unchecked_poll_decode :
    ∀ src : Nat → Fetch,
      ((∀ k, 1 ≤ k → k ≤ maxPollAttempts → bodyWF (src k) = true) →
        (pollJob src).isSome = true) ∧
      (src 1 = Fetch.body (Json.obj []) → pollJob src = none) := by
  intro src
  constructor
  · intro hwf
    exact pollSteps_wf_isSome src maxPollAttempts 1 (fun j h1 h2 => hwf j h1 (by omega))
  · intro h1
    show pollSteps src 1 maxPollAttempts = none
    rw [show maxPollAttempts = 59 + 1 from rfl]
    simp [pollSteps, h1, getStrField, getMember, lookupKey]

/-- Witness for C10: a defined run on an all-success source and an
undefined run on a status-less first body. -/
theorem c10_witness :
    (∀ k, 1 ≤ k → k ≤ maxPollAttempts → bodyWF (srcAllSuccess k) = true) ∧
    (pollJob srcAllSuccess).isSome = true ∧
    srcMalformed 1 = Fetch.body (Json.obj []) ∧
    pollJob srcMalformed = none :=
  ⟨fun _ _ _ => rfl,
   (c10_unchecked_poll_decode srcAllSuccess).1 (fun _ _ _ => rfl),
   rfl,
   (c10_unchecked_poll_decode srcMalformed).2 rfl⟩
